import Mathlib

/-!
Shallow embedding of the molasses-go feature-flag evaluation engine.

The repository carries two revisions of the engine:
* `feature.go` — user params are strings (`map[string]string`), one
  `meetsConstraint` over string comparisons;
* a later revision (second document of `example/main.go`) — user params are
  dynamically typed (`map[string]interface{}`), with per-type coercion
  (`getFloat64Value`, `getBoolValue`, `getStringValue`) and per-type
  constraint checks.  That revision is embedded in the `Typed` namespace.

Go details carried over faithfully:
* a Go map index on a missing key yields the zero value, so a missing
  `"everyoneElse"` segment evaluates as the zero `featureSegment` and a
  missing string param reads as `""` with `ok = false`;
* `math.Mod(float64(crc32), 100.0)` is exact for 32-bit integers, so the
  bucket value is modelled as `crc32 id % 100 : ℤ` compared with the
  percentage as an integer (the float comparison `v < float64(p)` agrees
  with the integer comparison for every `int` `p`, since `v ∈ [0,99]`);
* an empty `case` arm of a Go type switch does NOT fall through: in
  `getBoolValue` the arm `case int:` is empty, so an `int` value reaches
  the trailing `return false, errors.New(...)`;
* `strconv.ParseFloat` is modelled with Go's full acceptance set — the
  signed case-insensitive `inf`/`infinity`/`nan` specials, decimal and
  hexadecimal mantissas, Go's underscore placement rules, and the
  `ErrRange` overflow cutoff (all of which decide the `err != nil` branch
  the code tests); accepted finite values are kept as exact rationals,
  the rounding to the nearest binary float64 being the one disclosed
  abstraction (see `parseFloat`).
-/

/-- One byte step of IEEE CRC-32 (reflected polynomial `0xEDB88320`),
as in Go's `hash/crc32.ChecksumIEEE`. -/
def crc32Byte (crc b : Nat) : Nat :=
  let step := fun (c : Nat) => if c % 2 = 1 then (c / 2) ^^^ 0xEDB88320 else c / 2
  step (step (step (step (step (step (step (step (crc ^^^ b))))))))

/-- Go `hash/crc32.ChecksumIEEE` over a byte list. -/
def crc32 (bytes : List Nat) : Nat :=
  (bytes.foldl crc32Byte 0xFFFFFFFF) ^^^ 0xFFFFFFFF

/-- UTF-8 encoding of one character, as Go's `[]byte(string)` produces. -/
def charUTF8 (c : Char) : List Nat :=
  let n := c.toNat
  if n < 0x80 then [n]
  else if n < 0x800 then [0xC0 ||| n / 64, 0x80 ||| n % 64]
  else if n < 0x10000 then
    [0xE0 ||| n / 4096, 0x80 ||| (n / 64) % 64, 0x80 ||| n % 64]
  else
    [0xF0 ||| n / 262144, 0x80 ||| (n / 4096) % 64, 0x80 ||| (n / 64) % 64,
     0x80 ||| n % 64]

/-- The UTF-8 bytes of a string (Go's `[]byte(s)`). -/
def strBytes (s : String) : List Nat :=
  s.data.foldr (fun c acc => charUTF8 c ++ acc) []

/-- Go `strings.Contains`: `sub` occurs as a contiguous substring of `s`. -/
def strContains (s sub : String) : Bool :=
  s.data.tails.any (fun t => sub.data.isPrefixOf t)

/-- Go `strings.Split(s, ",")` over the character list: split around every
comma; the empty string yields one empty piece, as in Go. -/
def splitOnComma : List Char → List (List Char)
  | [] => [[]]
  | c :: rest =>
    let r := splitOnComma rest
    if c = ',' then [] :: r
    else
      match r with
      | h :: t => (c :: h) :: t
      | [] => [[c]]

/-- Go `containsParamValue` (feature.go): split `listAsString` on `,` and test
membership of `a`. -/
def containsParamValue (listAsString a : String) : Bool :=
  (splitOnComma listAsString.data).any (fun b => b = a.data)

/-- Go `userConstraint` (feature.go): one comparison rule.  `operator` is a
string type in Go; it is modelled as `String`. -/
structure userConstraint where
  Operator : String
  Values : String
  UserParam : String
  UserParamType : String
deriving Repr, DecidableEq

/-- Go `featureSegment` (feature.go). -/
structure featureSegment where
  SegmentType : String
  UserConstraints : List userConstraint
  Percentage : Int
  Constraint : String
deriving Repr, DecidableEq

/-- Go `feature` (feature.go). -/
structure feature where
  Key : String
  Description : String
  Version : String
  Active : Bool
  Segments : List featureSegment
deriving Repr, DecidableEq

/-- Go `User` (feature.go): `Params` is Go's `map[string]string`, modelled as
an association list (Go map keys are unique; lookup is first match). -/
structure User where
  ID : String
  Params : List (String × String)
deriving Repr, DecidableEq

/-- Go's `v, ok := m[k]` on a `map[string]string`. -/
def lookupStr (ps : List (String × String)) (k : String) : Option String :=
  match ps with
  | [] => none
  | (k2, v) :: rest => if k2 = k then some v else lookupStr rest k

/-- The zero value of `featureSegment`, what `segmentMap["everyoneElse"]`
yields when the key is absent. -/
def zeroSegment : featureSegment :=
  { SegmentType := "", UserConstraints := [], Percentage := 0, Constraint := "" }

/-- Go `meetsConstraint` (feature.go): each arm returns `true` only when
`paramExists` holds and the string comparison succeeds; the default arm and
fall-through return `false`. -/
def meetsConstraint (userValue : String) (paramExists : Bool)
    (constraint : userConstraint) : Bool :=
  match constraint.Operator with
  | "in" => paramExists && containsParamValue constraint.Values userValue
  | "nin" => paramExists && !containsParamValue constraint.Values userValue
  | "equals" => paramExists && userValue = constraint.Values
  | "doesNotEqual" => paramExists && userValue ≠ constraint.Values
  | "contains" => paramExists && strContains userValue constraint.Values
  | "doesNotContain" => paramExists && !strContains userValue constraint.Values
  | _ => false

/-- One iteration of the loop body of `isUserInSegment` (feature.go):
resolve `userValue, paramExists := user.Params[constraint.UserParam]`
(missing key gives `""`, `false`), special-case `UserParam == "id"`, and
test the constraint. -/
def evalConstraint (user : User) (c : userConstraint) : Bool :=
  let found := lookupStr user.Params c.UserParam
  let userValue := if c.UserParam = "id" then user.ID else found.getD ""
  let paramExists := if c.UserParam = "id" then true else found.isSome
  meetsConstraint userValue paramExists c

/-- The `constraintsMet` counter of `isUserInSegment` (feature.go). -/
def constraintsMetCount (user : User) (cs : List userConstraint) : Nat :=
  cs.foldl (fun acc c => if evalConstraint user c then acc + 1 else acc) 0

/-- Go `isUserInSegment` (feature.go): `constraintsToBeMet` is the number of
constraints, overridden to `1` when `s.Constraint == any`. -/
def isUserInSegment (user : User) (s : featureSegment) : Bool :=
  let constraintsToBeMet :=
    if s.Constraint = "any" then 1 else s.UserConstraints.length
  constraintsMetCount user s.UserConstraints ≥ constraintsToBeMet

/-- Go `getUserPercentage` (feature.go): fast path at 100, otherwise compare
the user's CRC-32 bucket (`checksum mod 100`, an integer in `[0,99]`)
against the percentage. -/
def getUserPercentage (user : User) (segment : featureSegment) : Bool :=
  if segment.Percentage = 100 then true
  else (crc32 (strBytes user.ID) % 100 : Int) < segment.Percentage

/-- The `segmentMap` built by `isActive` (feature.go), indexing segments by
type, last one winning. -/
structure SegmentIndex where
  ctrl : Option featureSegment
  exp : Option featureSegment
  everyone : Option featureSegment
deriving Repr, DecidableEq

/-- Build the `segmentMap` of `isActive` (feature.go): a fold over the
segments; unknown segment types are skipped. -/
def buildSegmentMap (segs : List featureSegment) : SegmentIndex :=
  segs.foldl
    (fun m s =>
      match s.SegmentType with
      | "alwaysControl" => { m with ctrl := some s }
      | "alwaysExperiment" => { m with exp := some s }
      | "everyoneElse" => { m with everyone := some s }
      | _ => m)
    { ctrl := none, exp := none, everyone := none }

/-- Go `isActive` (feature.go).  `user = none` models the `nil` pointer.
A missing `everyoneElse` entry evaluates as the zero segment. -/
def isActive (f : feature) (user : Option User) : Bool :=
  if !f.Active then false
  else
    match user with
    | none => true
    | some u =>
      let segmentMap := buildSegmentMap f.Segments
      if (match segmentMap.ctrl with
          | some s => isUserInSegment u s
          | none => false) then false
      else if (match segmentMap.exp with
          | some s => isUserInSegment u s
          | none => false) then true
      else getUserPercentage u (segmentMap.everyone.getD zeroSegment)

/-- Go's map index `c.featuresCache[key]`: zero `feature` on a miss. -/
def cacheLookup (cache : List (String × feature)) (key : String) : feature :=
  match cache with
  | [] => { Key := "", Description := "", Version := "", Active := false,
            Segments := [] }
  | (k, f) :: rest => if k = key then f else cacheLookup rest key

/-- Go `client.IsActive` (molasses.go): with no user argument evaluate with
`nil`; otherwise evaluate with a pointer to the first user only. -/
def ClientIsActive (cache : List (String × feature)) (key : String)
    (user : List User) : Bool :=
  match user with
  | [] => isActive (cacheLookup cache key) none
  | u :: _ => isActive (cacheLookup cache key) (some u)

/-- Go `strconv.ParseBool`: Go accepts exactly these twelve strings. -/
def parseBool (s : String) : Option Bool :=
  match s with
  | "1" | "t" | "T" | "true" | "TRUE" | "True" => some true
  | "0" | "f" | "F" | "false" | "FALSE" | "False" => some false
  | _ => none

/-- Digits to a number, most significant first. -/
def digitsToNat (ds : List Char) : Nat :=
  ds.foldl (fun a c => a * 10 + (c.toNat - 48)) 0

/-- A `float64` as `strconv.ParseFloat` can produce it: a finite value
(kept as an exact rational), an infinity, or NaN. -/
inductive GoFloat where
  | finite (q : ℚ)
  | posInf
  | negInf
  | nan
deriving Repr, DecidableEq

/-- ASCII lower-casing, as Go's `lower(c)` in strconv. -/
def lowerChar (c : Char) : Char :=
  if 'A' ≤ c ∧ c ≤ 'Z' then Char.ofNat (c.toNat + 32) else c

/-- Decimal digit test over the plain ASCII range, as strconv's scanners. -/
def isDigitChar (c : Char) : Bool := '0' ≤ c ∧ c ≤ '9'

/-- Hexadecimal digit test, case-insensitive, as strconv's hex scanner. -/
def isHexDigitChar (c : Char) : Bool :=
  isDigitChar c || ('a' ≤ lowerChar c && lowerChar c ≤ 'f')

/-- Value of one hexadecimal digit. -/
def hexDigitVal (c : Char) : Nat :=
  if isDigitChar c then c.toNat - 48 else (lowerChar c).toNat - 87

/-- Hex digits to a number, most significant first. -/
def hexToNat (ds : List Char) : Nat :=
  ds.foldl (fun a c => a * 16 + hexDigitVal c) 0

/-- Go `special` (strconv/atof.go): the case-insensitive spellings
`inf` and `infinity`, optionally signed, and unsigned `nan` — exactly the
special strings `ParseFloat` accepts in full. -/
def specialFloat (s : String) : Option GoFloat :=
  match s.data.map lowerChar with
  | ['i', 'n', 'f'] | ['i', 'n', 'f', 'i', 'n', 'i', 't', 'y'] =>
    some .posInf
  | ['+', 'i', 'n', 'f'] | ['+', 'i', 'n', 'f', 'i', 'n', 'i', 't', 'y'] =>
    some .posInf
  | ['-', 'i', 'n', 'f'] | ['-', 'i', 'n', 'f', 'i', 'n', 'i', 't', 'y'] =>
    some .negInf
  | ['n', 'a', 'n'] => some .nan
  | _ => none

/-- The scan state loop of Go `underscoreOK` (strconv/atof.go): `saw` is
the class of the previous character — a digit or base prefix counts as
`'0'`, an underscore as `'_'`, anything else as `'!'`; every underscore
must sit between digits, and the string must not end in one. -/
def underscoreOKCore (hex : Bool) (saw : Char) : List Char → Bool
  | [] => saw ≠ '_'
  | c :: rest =>
    if isDigitChar c || (hex && ('a' ≤ lowerChar c && lowerChar c ≤ 'f')) then
      underscoreOKCore hex '0' rest
    else if c = '_' then
      if saw = '0' then underscoreOKCore hex '_' rest else false
    else if saw = '_' then false
    else underscoreOKCore hex '!' rest

/-- Go `underscoreOK` (strconv/atof.go): an optional sign, an optional
base prefix (which counts as a digit for placement purposes), then the
scan state loop. -/
def underscoreOK (cs0 : List Char) : Bool :=
  let cs1 := match cs0 with
    | '+' :: r => r
    | '-' :: r => r
    | r => r
  match cs1 with
  | '0' :: b :: rest =>
    if lowerChar b = 'b' ∨ lowerChar b = 'o' ∨ lowerChar b = 'x' then
      underscoreOKCore (lowerChar b = 'x') '0' rest
    else underscoreOKCore false '^' cs1
  | _ => underscoreOKCore false '^' cs1

/-- Remove the digit-separator underscores (their placement has already
been validated by `underscoreOK`). -/
def dropUnderscores (cs : List Char) : List Char :=
  cs.filter (fun c => c ≠ '_')

/-- Values at or above this round to `+Inf` under float64
round-to-nearest-even — the midpoint between the largest finite float64
and `2^1024` — making `ParseFloat` report `ErrRange` (a non-nil error).
The numeral is `2^1024 - 2^970`, written out so that concrete inputs
evaluate without reducing a large exponentiation. -/
def overflowCutoff : Nat := 179769313486231580793728971405303415079934132710037826936173778980444968292764750946649017977587207096330286416692887910946555547851940402630657488671505820681908902000708383676273854845817711531764475730270069855571366959622842914819860834936475292719074168444365510704342711559699508093042880177904174497792

/-- `base ^ m`, with the exponent split so no single exponentiation step
exceeds the elaborator's evaluation threshold on concrete inputs. -/
def powSplit (base m : Nat) : Nat := (base ^ (m / 8)) ^ 8 * base ^ (m % 8)

/-- Whether `N * base^k` reaches `overflowCutoff` — the cutoff is an
integer, so the test is exact integer arithmetic: for `k < 0` compare
`N ≥ cutoff * base^(-k)` instead of dividing. -/
def scaledOverflow (base N : Nat) (k : Int) : Bool :=
  if 0 ≤ k then N * powSplit base k.toNat ≥ overflowCutoff
  else N ≥ overflowCutoff * powSplit base (-k).toNat

/-- The exact rational `±(N * base^k)`, built from integer arithmetic. -/
def scaledFinite (neg : Bool) (base N : Nat) (k : Int) : ℚ :=
  let mag : Int := if 0 ≤ k then ((N * powSplit base k.toNat : Nat) : Int)
    else ((N : Nat) : Int)
  mkRat (if neg then -mag else mag)
    (if 0 ≤ k then 1 else powSplit base (-k).toNat)

/-- Result of a parsed decimal mantissa-and-exponent: the value is
`N * 10^k` with the written sign.  `none` models `ErrRange` (overflow to
infinity, a non-nil error in Go).  `d` is the count of significant digits,
giving `10^(d-1) ≤ N < 10^d`, so the two quick guards are exact: at
`k + d ≥ 310` the value is at least `10^309 > overflowCutoff`, and at
`k + d ≤ -400` it is below half the smallest denormal, which Go rounds to
exactly `0` with a nil error (the one place this model takes Go's rounded
result instead of the exact rational, keeping the definition computable
for arbitrarily large exponent digit strings). -/
def decValue (neg : Bool) (N : Nat) (d k : Int) : Option GoFloat :=
  if N = 0 then some (.finite 0)
  else if k + d ≥ 310 then none
  else if k + d ≤ -400 then some (.finite 0)
  else if scaledOverflow 10 N k then none
  else some (.finite (scaledFinite neg 10 N k))

/-- Result of a parsed hexadecimal mantissa-and-exponent: the value is
`M * 2^k` with the written sign.  `hd` is the count of significant hex
digits, giving `2^(4*hd-4) ≤ M < 2^(4*hd)`; the guards mirror
`decValue`. -/
def hexValue (neg : Bool) (M : Nat) (hd k : Int) : Option GoFloat :=
  if M = 0 then some (.finite 0)
  else if k + 4 * hd - 4 ≥ 1024 then none
  else if k + 4 * hd ≤ -1090 then some (.finite 0)
  else if scaledOverflow 2 M k then none
  else some (.finite (scaledFinite neg 2 M k))

/-- The decimal arm of Go `readFloat`: `digits [. digits] | . digits`,
at least one digit in the mantissa, an optional `e|E [+-] digits`
exponent, full consumption. -/
def parseDec (neg : Bool) (cs1 : List Char) : Option GoFloat :=
  let ip := (cs1.span isDigitChar).1
  let cs2 := (cs1.span isDigitChar).2
  let fp := match cs2 with
    | '.' :: r => (r.span isDigitChar).1
    | _ => []
  let cs3 := match cs2 with
    | '.' :: r => (r.span isDigitChar).2
    | r => r
  if ip.isEmpty && fp.isEmpty then none
  else
    let N := digitsToNat (ip ++ fp)
    let d : Int := (((ip ++ fp).dropWhile (fun c => c = '0')).length : Int)
    match cs3 with
    | [] => decValue neg N d (-(fp.length : Int))
    | c :: r =>
      if lowerChar c = 'e' then
        let esgnNeg : Bool := match r with
          | '-' :: _ => true
          | _ => false
        let r2 := match r with
          | '+' :: r3 => r3
          | '-' :: r3 => r3
          | r3 => r3
        let ed := (r2.span isDigitChar).1
        let rest := (r2.span isDigitChar).2
        if ed.isEmpty ∨ !rest.isEmpty then none
        else
          let e : Int :=
            (if esgnNeg then -1 else 1) * (digitsToNat ed : Int)
          decValue neg N d (e - (fp.length : Int))
      else none

/-- The hexadecimal arm of Go `readFloat` (after the `0x` prefix): hex
digits with an optional point, a MANDATORY `p|P [+-] digits` binary
exponent, full consumption. -/
def parseHex (neg : Bool) (rest : List Char) : Option GoFloat :=
  let ip := (rest.span isHexDigitChar).1
  let cs2 := (rest.span isHexDigitChar).2
  let fp := match cs2 with
    | '.' :: r => (r.span isHexDigitChar).1
    | _ => []
  let cs3 := match cs2 with
    | '.' :: r => (r.span isHexDigitChar).2
    | r => r
  if ip.isEmpty && fp.isEmpty then none
  else
    match cs3 with
    | [] => none
    | c :: r =>
      if lowerChar c = 'p' then
        let esgnNeg : Bool := match r with
          | '-' :: _ => true
          | _ => false
        let r2 := match r with
          | '+' :: r3 => r3
          | '-' :: r3 => r3
          | r3 => r3
        let ed := (r2.span isDigitChar).1
        let rest2 := (r2.span isDigitChar).2
        if ed.isEmpty ∨ !rest2.isEmpty then none
        else
          let M := hexToNat (ip ++ fp)
          let hd : Int :=
            (((ip ++ fp).dropWhile (fun c => c = '0')).length : Int)
          let p : Int :=
            (if esgnNeg then -1 else 1) * (digitsToNat ed : Int)
          hexValue neg M hd (p - 4 * (fp.length : Int))
      else none

/-- Go `strconv.ParseFloat` (the code passes bitSize 10, which strconv
treats as 64-bit): `none` exactly when Go returns a non-nil error — a
syntax error (bad shape, misplaced underscore, hex without `p` exponent,
trailing input) or `ErrRange` on overflow to infinity.  Accepted are the
signed case-insensitive `inf`/`infinity` and `nan` specials, decimal and
`0x` hexadecimal mantissas with Go's underscore placement rules, and the
respective exponents.  Finite values are kept as exact rationals (the
rounding of an in-range value to the nearest binary float64 is not
modelled; extreme underflow yields `0` as in Go). -/
def parseFloat (s : String) : Option GoFloat :=
  match specialFloat s with
  | some f => some f
  | none =>
    if !underscoreOK s.data then none
    else
      let cs0 := dropUnderscores s.data
      let neg : Bool := match cs0 with
        | '-' :: _ => true
        | _ => false
      let cs1 := match cs0 with
        | '+' :: r => r
        | '-' :: r => r
        | r => r
      match cs1 with
      | '0' :: x :: rest =>
        if lowerChar x = 'x' then parseHex neg rest
        else parseDec neg cs1
      | _ => parseDec neg cs1

/-- IEEE equality on float64 values: NaN equals nothing (itself
included), infinities equal themselves, finite values compare
exactly. -/
def goFloatEq : GoFloat → GoFloat → Bool
  | .finite a, .finite b => a = b
  | .posInf, .posInf => true
  | .negInf, .negInf => true
  | _, _ => false

/-- IEEE strict order on float64 values: any comparison with NaN is
false; `-Inf` is below everything else and `+Inf` above. -/
def goFloatLt : GoFloat → GoFloat → Bool
  | .finite a, .finite b => a < b
  | .finite _, .posInf => true
  | .negInf, .finite _ => true
  | .negInf, .posInf => true
  | _, _ => false

/-- IEEE non-strict order: `a <= b` holds when `a < b` or `a == b`
(false whenever NaN is involved), as Go's `<=` on float64. -/
def goFloatLe (a b : GoFloat) : Bool := goFloatLt a b || goFloatEq a b

namespace Typed

/-- A value held in Go's `interface{}`: the cases the later revision's type
switches distinguish.  `nil` is the nil interface a map read on a missing
key yields.  `float` carries the `float64` as an exact rational — the
feature payload is JSON, whose numbers are always finite. -/
inductive GoValue where
  | bool (b : Bool)
  | str (s : String)
  | int (n : Int)
  | uint (n : Nat)
  | float (q : ℚ)
  | nil
deriving Repr, DecidableEq

/-- Go `User` of the later revision: `Params` is `map[string]interface{}`. -/
structure User where
  ID : String
  Params : List (String × GoValue)
deriving Repr, DecidableEq

/-- Go's `v, ok := m[k]` on a `map[string]interface{}`. -/
def lookupVal (ps : List (String × GoValue)) (k : String) : Option GoValue :=
  match ps with
  | [] => none
  | (k2, v) :: rest => if k2 = k then some v else lookupVal rest k

/-- Go `getFloat64Value`: the Go arm `case uint:` has an EMPTY body (no
fallthrough), so a `uint` reaches the trailing error return; so do `bool`
and the nil interface. -/
def getFloat64Value : GoValue → Option GoFloat
  | .bool _ => none
  | .str s => parseFloat s
  | .uint _ => none
  | .int n => some (.finite (n : ℚ))
  | .float q => some (.finite q)
  | .nil => none

/-- Go `getBoolValue`: the Go arm `case int:` has an EMPTY body, so an `int`
reaches the trailing error return; only a `float64` is tested `> 0.0`. -/
def getBoolValue : GoValue → Option Bool
  | .bool b => some b
  | .str s => parseBool s
  | .int _ => none
  | .float q => some (decide (0 < q))
  | .uint _ => none
  | .nil => none

/-- Models `fmt.Sprintf("%v", v)` for a `float64`.  The exact digit string
Go prints is irrelevant to every claim below; only that the conversion
succeeds matters. -/
def formatFloat (q : ℚ) : String := toString q

/-- Go `getStringValue`: the Go arm `case int:` has an EMPTY body, so an `int`
reaches the trailing error return. -/
def getStringValue : GoValue → Option String
  | .bool b => some (if b then "true" else "false")
  | .str s => some s
  | .int _ => none
  | .float q => some (formatFloat q)
  | .uint _ => none
  | .nil => none

/-- Go `meetsConstraintForBool`: parse `constraint.Values` with
`strconv.ParseBool`; on error return `false`; only `equals` and
`doesNotEqual` are defined. -/
def meetsConstraintForBool (userValue : Bool) (paramExists : Bool)
    (constraint : userConstraint) : Bool :=
  match parseBool constraint.Values with
  | none => false
  | some values =>
    match constraint.Operator with
    | "equals" => paramExists && userValue = values
    | "doesNotEqual" => paramExists && userValue ≠ values
    | _ => false

/-- Go `meetsConstraintForNumber`: parse `constraint.Values` with
`strconv.ParseFloat`; on a non-nil error (syntax or range) return
`false`; comparisons are Go's float64 comparisons (IEEE semantics for
infinities and NaN, with `!=` the negation of `==`). -/
def meetsConstraintForNumber (userValue : GoFloat) (paramExists : Bool)
    (constraint : userConstraint) : Bool :=
  match parseFloat constraint.Values with
  | none => false
  | some values =>
    match constraint.Operator with
    | "equals" => paramExists && goFloatEq userValue values
    | "doesNotEqual" => paramExists && !goFloatEq userValue values
    | "gt" => paramExists && goFloatLt values userValue
    | "lt" => paramExists && goFloatLt userValue values
    | "gte" => paramExists && goFloatLe values userValue
    | "lte" => paramExists && goFloatLe userValue values
    | _ => false

/-- Go `meetsConstraintForString`: the string comparisons of the later
revision (same shape as `meetsConstraint` of feature.go). -/
def meetsConstraintForString (userValue : String) (paramExists : Bool)
    (constraint : userConstraint) : Bool :=
  match constraint.Operator with
  | "in" => paramExists && containsParamValue constraint.Values userValue
  | "nin" => paramExists && !containsParamValue constraint.Values userValue
  | "equals" => paramExists && userValue = constraint.Values
  | "doesNotEqual" => paramExists && userValue ≠ constraint.Values
  | "contains" => paramExists && strContains userValue constraint.Values
  | "doesNotContain" =>
    paramExists && !strContains userValue constraint.Values
  | _ => false

/-- The `case "number"` body of the later revision's `isUserInSegment`
loop: `v, err := getFloat64Value(userValue); if err != nil { continue }`
(a coercion error contributes nothing), then the number matcher. -/
def coerceAndMeetNumber (userValue : GoValue) (paramExists : Bool)
    (c : userConstraint) : Bool :=
  match getFloat64Value userValue with
  | none => false
  | some v => meetsConstraintForNumber v paramExists c

/-- The `case "bool"` body of the later revision's `isUserInSegment`
loop. -/
def coerceAndMeetBool (userValue : GoValue) (paramExists : Bool)
    (c : userConstraint) : Bool :=
  match getBoolValue userValue with
  | none => false
  | some v => meetsConstraintForBool v paramExists c

/-- The `default` body of the later revision's `isUserInSegment` loop. -/
def coerceAndMeetString (userValue : GoValue) (paramExists : Bool)
    (c : userConstraint) : Bool :=
  match getStringValue userValue with
  | none => false
  | some v => meetsConstraintForString v paramExists c

/-- One iteration of the loop body of the later revision's
`isUserInSegment`: resolve the raw value (the `"id"` special case uses the
user's identifier as a string), dispatch on `UserParamType`, and on a
coercion error `continue` (contribute nothing). -/
def evalConstraint (user : User) (c : userConstraint) : Bool :=
  let found := lookupVal user.Params c.UserParam
  let userValue := if c.UserParam = "id" then GoValue.str user.ID
    else found.getD .nil
  let paramExists := if c.UserParam = "id" then true else found.isSome
  match c.UserParamType with
  | "number" => coerceAndMeetNumber userValue paramExists c
  | "bool" => coerceAndMeetBool userValue paramExists c
  | _ => coerceAndMeetString userValue paramExists c

/-- The `constraintsMet` counter of the later revision's
`isUserInSegment`. -/
def constraintsMetCount (user : User) (cs : List userConstraint) : Nat :=
  cs.foldl (fun acc c => if evalConstraint user c then acc + 1 else acc) 0

/-- Go `isUserInSegment` of the later revision. -/
def isUserInSegment (user : User) (s : featureSegment) : Bool :=
  let constraintsToBeMet :=
    if s.Constraint = "any" then 1 else s.UserConstraints.length
  constraintsMetCount user s.UserConstraints ≥ constraintsToBeMet

end Typed

/-- A concrete alwaysControl segment with no constraints (mode defaults to
all, so it matches every user). -/
def demoControlSegment : featureSegment :=
  { SegmentType := "alwaysControl", UserConstraints := [], Percentage := 0,
    Constraint := "" }

/-- A concrete alwaysExperiment segment with no constraints. -/
def demoExperimentSegment : featureSegment :=
  { SegmentType := "alwaysExperiment", UserConstraints := [], Percentage := 0,
    Constraint := "" }

/-- A concrete everyoneElse segment at percentage 100. -/
def demoEveryoneSegment : featureSegment :=
  { SegmentType := "everyoneElse", UserConstraints := [], Percentage := 100,
    Constraint := "" }

/-- A concrete user, as in the repository's README example. -/
def demoUser : User :=
  { ID := "baz", Params := [("teamId", "12356")] }

/-- A concrete feature carrying all three segment types. -/
def demoFeature : feature :=
  { Key := "TEST_FEATURE_FOR_USER", Description := "", Version := "",
    Active := true,
    Segments := [demoControlSegment, demoExperimentSegment,
                 demoEveryoneSegment] }

/-- C1: a feature whose `Active` field is `false` is inactive for every
user argument — any `User` value or the nil user — regardless of its
segments. -/
theorem isActive_inactive_always_false (f : feature) (user : Option User)
    (h : f.Active = false) : isActive f user = false := by
  simp [isActive, h]

/-- Witness for C1 at a concrete inactive feature that carries a
100-percent everyoneElse segment, for both a concrete user and the nil
user. -/
theorem isActive_inactive_always_false_witness :
    ({ demoFeature with Active := false } : feature).Active = false ∧
    isActive { demoFeature with Active := false } (some demoUser) = false ∧
    isActive { demoFeature with Active := false } none = false :=
  ⟨rfl, isActive_inactive_always_false _ (some demoUser) rfl,
    isActive_inactive_always_false _ none rfl⟩

/-- C2: for an active feature and a non-nil user, if the feature's indexed
alwaysControl segment matches the user per the segment matcher, `isActive`
returns `false` — whatever the other segments (alwaysExperiment, a
100-percent everyoneElse) would say. -/
theorem isActive_control_wins (f : feature) (u : User) (s : featureSegment)
    (hact : f.Active = true)
    (hctrl : (buildSegmentMap f.Segments).ctrl = some s)
    (hseg : isUserInSegment u s = true) :
    isActive f (some u) = false := by
  simp [isActive, hact, hctrl, hseg]

/-- Witness for C2: the concrete feature declares an alwaysControl segment
matching everyone, an alwaysExperiment segment matching everyone, and a
100-percent everyoneElse segment; the result is still `false`. -/
theorem isActive_control_wins_witness :
    demoFeature.Active = true ∧
    (buildSegmentMap demoFeature.Segments).ctrl = some demoControlSegment ∧
    isUserInSegment demoUser demoControlSegment = true ∧
    isUserInSegment demoUser demoExperimentSegment = true ∧
    isActive demoFeature (some demoUser) = false :=
  ⟨rfl, by decide, by decide, by decide,
    isActive_control_wins demoFeature demoUser demoControlSegment rfl
      (by decide) (by decide)⟩

/-- C5: a segment with zero user constraints matches every user under
constraint mode `all` (required count 0, vacuous truth) and matches no
user under constraint mode `any` (required count 1, nothing can be
met). -/
theorem isUserInSegment_zero_constraints (u : User) (s : featureSegment)
    (h : s.UserConstraints = []) :
    (s.Constraint = "all" → isUserInSegment u s = true) ∧
    (s.Constraint = "any" → isUserInSegment u s = false) := by
  constructor <;> intro hc <;>
    simp [isUserInSegment, constraintsMetCount, h, hc]

/-- Witness for C5 at a concrete user and concrete zero-constraint
segments in both modes. -/
theorem isUserInSegment_zero_constraints_witness :
    (demoEveryoneSegment.UserConstraints = [] ∧
      isUserInSegment demoUser
        { demoEveryoneSegment with Constraint := "all" } = true) ∧
    (isUserInSegment demoUser
        { demoEveryoneSegment with Constraint := "any" } = false) :=
  ⟨⟨rfl, (isUserInSegment_zero_constraints demoUser
      { demoEveryoneSegment with Constraint := "all" } rfl).1 rfl⟩,
    (isUserInSegment_zero_constraints demoUser
      { demoEveryoneSegment with Constraint := "any" } rfl).2 rfl⟩

/-- C9: a constraint whose named user attribute is absent (`paramExists`
false and `UserParam` not the special `"id"`) is never met, for every
operator — including the negated ones `nin`, `doesNotEqual` and
`doesNotContain`. -/
theorem constraint_missing_param_never_met (v : String) (u : User)
    (c : userConstraint) (hid : c.UserParam ≠ "id")
    (habs : lookupStr u.Params c.UserParam = none) :
    meetsConstraint v false c = false ∧ evalConstraint u c = false := by
  have key : ∀ w : String, meetsConstraint w false c = false := by
    intro w
    unfold meetsConstraint
    split <;> simp
  refine ⟨key v, ?_⟩
  simp only [evalConstraint, habs, hid, if_neg hid, Option.isSome_none]
  exact key _

/-- Witness for C9: a user without the `favoriteColor` attribute meets no
constraint on it, here a `nin` constraint that would hold if the missing
value were read as the empty string. -/
theorem constraint_missing_param_never_met_witness :
    ({ Operator := "nin", Values := "red,blue", UserParam := "favoriteColor",
       UserParamType := "string" } : userConstraint).UserParam ≠ "id" ∧
    lookupStr demoUser.Params ("favoriteColor") = none ∧
    meetsConstraint ("green") false
      { Operator := "nin", Values := "red,blue", UserParam := "favoriteColor",
        UserParamType := "string" } = false ∧
    evalConstraint demoUser
      { Operator := "nin", Values := "red,blue", UserParam := "favoriteColor",
        UserParamType := "string" } = false := by
  refine ⟨by decide, by decide, ?_⟩
  have h := constraint_missing_param_never_met ("green") demoUser
    { Operator := "nin", Values := "red,blue", UserParam := "favoriteColor",
      UserParamType := "string" } (by decide) (by decide)
  exact ⟨h.1, h.2⟩

/-- C10: `client.IsActive` called with a key and more than one user
evaluates only the first: for every cache, key and non-empty user list the
result is `isActive` of the cached feature at the first user. -/
theorem clientIsActive_first_user_only (cache : List (String × feature))
    (key : String) (u : User) (us : List User) :
    ClientIsActive cache key (u :: us) =
      isActive (cacheLookup cache key) (some u) := rfl

/-- The CRC-32 bucket of a user id is below 100. -/
theorem bucket_lt_100 (id : String) :
    (crc32 (strBytes id) % 100 : Int) < 100 := by
  have h := Nat.mod_lt (crc32 (strBytes id)) (show 0 < 100 by norm_num)
  exact_mod_cast h

/-- C6: percentage bucketing is monotone in the percentage — for a fixed
user, if the bucketer accepts the user at the smaller percentage it accepts
the user at every larger one. -/
theorem getUserPercentage_monotone (u : User) (s1 s2 : featureSegment)
    (hlt : s1.Percentage < s2.Percentage)
    (h1 : getUserPercentage u s1 = true) :
    getUserPercentage u s2 = true := by
  have hb := bucket_lt_100 u.ID
  unfold getUserPercentage at h1 ⊢
  by_cases h2 : s2.Percentage = 100
  · simp [h2]
  · simp only [if_neg h2, decide_eq_true_eq]
    by_cases hA : s1.Percentage = 100
    · omega
    · simp only [if_neg hA, decide_eq_true_eq] at h1
      omega

/-- Witness for C6: the user "baz" is in the 100-percent bucket, hence in
the 101-percent bucket as well. -/
theorem getUserPercentage_monotone_witness :
    ((100 : Int) < 101) ∧
    getUserPercentage demoUser demoEveryoneSegment = true ∧
    getUserPercentage demoUser
      { demoEveryoneSegment with Percentage := 101 } = true :=
  ⟨by norm_num, by decide,
    getUserPercentage_monotone demoUser demoEveryoneSegment
      { demoEveryoneSegment with Percentage := 101 } (by decide) (by decide)⟩

/-- C7: percentage 100 accepts every user id, and percentage 0 accepts no
user id; consequently an active feature whose only segment is an
everyoneElse segment at percentage 0 is inactive for every (non-nil)
user. -/
theorem getUserPercentage_boundaries (u : User) (s : featureSegment) :
    (s.Percentage = 100 → getUserPercentage u s = true) ∧
    (s.Percentage = 0 → getUserPercentage u s = false) ∧
    (∀ f : feature, f.Active = true → f.Segments = [s] →
      s.SegmentType = "everyoneElse" → s.Percentage = 0 →
      isActive f (some u) = false) := by
  have hpos : (0 : Int) ≤ (crc32 (strBytes u.ID) : Int) % 100 :=
    Int.emod_nonneg _ (by norm_num)
  refine ⟨fun h => by simp [getUserPercentage, h], fun h => ?_, ?_⟩
  · simp only [getUserPercentage, h]
    norm_num
    omega
  · intro f hact hsegs htype hp
    have heval : getUserPercentage u s = false := by
      simp only [getUserPercentage, hp]
      norm_num
      omega
    simp [isActive, hact, hsegs, buildSegmentMap, htype, heval]

/-- Witness for C7 at the concrete user "baz" with concrete segments at
percentage 100 and 0, and a concrete one-segment feature at percentage
0. -/
theorem getUserPercentage_boundaries_witness :
    getUserPercentage demoUser demoEveryoneSegment = true ∧
    getUserPercentage demoUser
      { demoEveryoneSegment with Percentage := 0 } = false ∧
    isActive { demoFeature with
        Segments := [{ demoEveryoneSegment with Percentage := 0 }] }
      (some demoUser) = false :=
  ⟨(getUserPercentage_boundaries demoUser demoEveryoneSegment).1 rfl,
    (getUserPercentage_boundaries demoUser
      { demoEveryoneSegment with Percentage := 0 }).2.1 rfl,
    (getUserPercentage_boundaries demoUser
      { demoEveryoneSegment with Percentage := 0 }).2.2
      _ rfl rfl rfl rfl⟩

/-- C8: a constraint whose `UserParam` is the literal `"id"` is evaluated
against the user's `ID` field with `paramExists` true, and the user's
params map — in particular whether `"id"` appears in it — is
irrelevant. -/
theorem evalConstraint_id_special_case (u : User) (c : userConstraint)
    (h : c.UserParam = "id") :
    evalConstraint u c = meetsConstraint u.ID true c ∧
    (∀ ps : List (String × String),
      evalConstraint { ID := u.ID, Params := ps } c = evalConstraint u c) := by
  constructor
  · simp [evalConstraint, h]
  · intro ps
    simp [evalConstraint, h]

/-- Witness for C8: an `equals`-on-`"id"` constraint is met by the user
"baz" although `"id"` is absent from the params map, and stays met when
the params map is emptied. -/
theorem evalConstraint_id_special_case_witness :
    ({ Operator := "equals", Values := "baz", UserParam := "id",
       UserParamType := "string" } : userConstraint).UserParam = "id" ∧
    lookupStr demoUser.Params ("id") = none ∧
    evalConstraint demoUser
      { Operator := "equals", Values := "baz", UserParam := "id",
        UserParamType := "string" } =
      meetsConstraint demoUser.ID true
        { Operator := "equals", Values := "baz", UserParam := "id",
          UserParamType := "string" } ∧
    evalConstraint { ID := demoUser.ID, Params := [] }
      { Operator := "equals", Values := "baz", UserParam := "id",
        UserParamType := "string" } = true := by
  refine ⟨rfl, by decide, ?_, ?_⟩
  · exact (evalConstraint_id_special_case demoUser
      { Operator := "equals", Values := "baz", UserParam := "id",
        UserParamType := "string" } rfl).1
  · have h := (evalConstraint_id_special_case demoUser
      { Operator := "equals", Values := "baz", UserParam := "id",
        UserParamType := "string" } rfl).2 []
    rw [h]
    decide

/-- The number matcher returns false when the rule's `Values` does not
parse as a float or its operator is not a numeric one. -/
theorem meetsConstraintForNumber_ineffective (v : GoFloat) (pe : Bool)
    (c : userConstraint)
    (h : parseFloat c.Values = none ∨
      c.Operator ∉ (["equals", "doesNotEqual", "gt", "lt", "gte", "lte"] :
        List String)) :
    Typed.meetsConstraintForNumber v pe c = false := by
  unfold Typed.meetsConstraintForNumber
  rcases h with h | h
  · simp [h]
  · split
    · rfl
    · split <;> simp_all

/-- The boolean matcher returns false when the rule's `Values` does not
parse as a boolean or its operator is not a boolean one. -/
theorem meetsConstraintForBool_ineffective (v : Bool) (pe : Bool)
    (c : userConstraint)
    (h : parseBool c.Values = none ∨
      c.Operator ∉ (["equals", "doesNotEqual"] : List String)) :
    Typed.meetsConstraintForBool v pe c = false := by
  unfold Typed.meetsConstraintForBool
  rcases h with h | h
  · simp [h]
  · split
    · rfl
    · split <;> simp_all

/-- The string matcher returns false on an operator outside its six string
operators. -/
theorem meetsConstraintForString_ineffective (v : String) (pe : Bool)
    (c : userConstraint)
    (h : c.Operator ∉ (["in", "nin", "equals", "doesNotEqual", "contains",
      "doesNotContain"] : List String)) :
    Typed.meetsConstraintForString v pe c = false := by
  unfold Typed.meetsConstraintForString
  split <;> simp_all

/-- The whole `case "number"` loop body yields false for every incoming
value when the rule itself is bad. -/
theorem coerceAndMeetNumber_ineffective (v : Typed.GoValue) (pe : Bool)
    (c : userConstraint)
    (h : parseFloat c.Values = none ∨
      c.Operator ∉ (["equals", "doesNotEqual", "gt", "lt", "gte", "lte"] :
        List String)) :
    Typed.coerceAndMeetNumber v pe c = false := by
  unfold Typed.coerceAndMeetNumber
  split
  · rfl
  · exact meetsConstraintForNumber_ineffective _ _ _ h

/-- The whole `case "bool"` loop body yields false for every incoming
value when the rule itself is bad. -/
theorem coerceAndMeetBool_ineffective (v : Typed.GoValue) (pe : Bool)
    (c : userConstraint)
    (h : parseBool c.Values = none ∨
      c.Operator ∉ (["equals", "doesNotEqual"] : List String)) :
    Typed.coerceAndMeetBool v pe c = false := by
  unfold Typed.coerceAndMeetBool
  split
  · rfl
  · exact meetsConstraintForBool_ineffective _ _ _ h

/-- The whole `default` loop body yields false for every incoming value
when the operator is not a string operator. -/
theorem coerceAndMeetString_ineffective (v : Typed.GoValue) (pe : Bool)
    (c : userConstraint)
    (h : c.Operator ∉ (["in", "nin", "equals", "doesNotEqual", "contains",
      "doesNotContain"] : List String)) :
    Typed.coerceAndMeetString v pe c = false := by
  unfold Typed.coerceAndMeetString
  split
  · rfl
  · exact meetsConstraintForString_ineffective _ _ _ h

/-- A constraint is ineffective when its `Values` does not parse under the
declared `UserParamType` (a non-nil error from `ParseFloat`/`ParseBool`),
or its operator is undefined for the declared type — including a numeric
comparator under the string/default type, and any unknown operator. -/
def constraintIneffective (c : userConstraint) : Prop :=
  (c.UserParamType = "number" ∧ (parseFloat c.Values = none ∨
    c.Operator ∉ (["equals", "doesNotEqual", "gt", "lt", "gte", "lte"] :
      List String))) ∨
  (c.UserParamType = "bool" ∧ (parseBool c.Values = none ∨
    c.Operator ∉ (["equals", "doesNotEqual"] : List String))) ∨
  (c.UserParamType ≠ "number" ∧ c.UserParamType ≠ "bool" ∧
    c.Operator ∉ (["in", "nin", "equals", "doesNotEqual", "contains",
      "doesNotContain"] : List String))

/-- C4: feature evaluation never errors — a constraint whose `Values`
field does not parse under its declared `UserParamType`, or whose
operator/type combination is undefined, is simply never met, and the
count of met constraints over the remaining constraints is exactly the
count with the bad constraint removed (evaluation of the rest
continues). -/
theorem typed_malformed_degrades_gracefully (c : userConstraint)
    (h : constraintIneffective c) :
    (∀ u : Typed.User, Typed.evalConstraint u c = false) ∧
    (∀ (u : Typed.User) (cs1 cs2 : List userConstraint),
      Typed.constraintsMetCount u (cs1 ++ c :: cs2) =
        Typed.constraintsMetCount u (cs1 ++ cs2)) := by
  have hev : ∀ u : Typed.User, Typed.evalConstraint u c = false := by
    intro u
    unfold Typed.evalConstraint
    rcases h with ⟨ht, h⟩ | ⟨ht, h⟩ | h
    · simp only [ht]
      exact coerceAndMeetNumber_ineffective _ _ _ h
    · simp only [ht]
      exact coerceAndMeetBool_ineffective _ _ _ h
    · obtain ⟨ht1, ht2, h⟩ := h
      split <;> split <;>
        first
          | exact coerceAndMeetString_ineffective _ _ _ h
          | simp_all
  refine ⟨hev, ?_⟩
  intro u cs1 cs2
  simp [Typed.constraintsMetCount, List.foldl_append, hev u]

/-- Witness for C4, covering both hypothesis families: a `number`
constraint whose `Values` is the unparseable string "abc" is not met
although the user's attribute is a fine number, and removing it from the
middle of a constraint list does not change the met count — the
neighbours are still evaluated; and a numeric comparator (`gt`) under the
default string type is an operator/type mismatch that is likewise never
met. -/
theorem typed_malformed_degrades_gracefully_witness :
    constraintIneffective
      { Operator := "equals", Values := "abc", UserParam := "score",
        UserParamType := "number" } ∧
    Typed.evalConstraint
      { ID := "u1", Params := [("score", .int 7), ("plan", .str "pro")] }
      { Operator := "equals", Values := "abc", UserParam := "score",
        UserParamType := "number" } = false ∧
    Typed.constraintsMetCount
      { ID := "u1", Params := [("score", .int 7), ("plan", .str "pro")] }
      ([{ Operator := "equals", Values := "pro", UserParam := "plan",
          UserParamType := "string" }] ++
        { Operator := "equals", Values := "abc", UserParam := "score",
          UserParamType := "number" } ::
        [{ Operator := "nin", Values := "free,trial", UserParam := "plan",
           UserParamType := "string" }]) =
      Typed.constraintsMetCount
        { ID := "u1", Params := [("score", .int 7), ("plan", .str "pro")] }
        ([{ Operator := "equals", Values := "pro", UserParam := "plan",
            UserParamType := "string" }] ++
          [{ Operator := "nin", Values := "free,trial", UserParam := "plan",
             UserParamType := "string" }]) ∧
    constraintIneffective
      { Operator := "gt", Values := "5", UserParam := "plan",
        UserParamType := "string" } ∧
    Typed.evalConstraint
      { ID := "u1", Params := [("score", .int 7), ("plan", .str "pro")] }
      { Operator := "gt", Values := "5", UserParam := "plan",
        UserParamType := "string" } = false := by
  have hbad : constraintIneffective
      { Operator := "equals", Values := "abc", UserParam := "score",
        UserParamType := "number" } :=
    Or.inl ⟨rfl, Or.inl (by decide)⟩
  have hmis : constraintIneffective
      { Operator := "gt", Values := "5", UserParam := "plan",
        UserParamType := "string" } :=
    Or.inr (Or.inr ⟨by decide, by decide, by decide⟩)
  refine ⟨hbad, ?_, ?_, hmis, ?_⟩
  · exact (typed_malformed_degrades_gracefully _ hbad).1 _
  · exact (typed_malformed_degrades_gracefully _ hbad).2 _ _ _
  · exact (typed_malformed_degrades_gracefully _ hmis).1 _

/-- Values that Go's `ParseFloat` does accept are outside the theorem
above and ARE evaluated: `"Inf"` parses (to `+Inf`, which any finite user
value is below, so an `lt`-on-`"Inf"` constraint is met), and the
underscored `"1_000"` parses to the number 1000. -/
theorem parseFloat_go_accepted_values_evaluated :
    parseFloat ("Inf") = some .posInf ∧
    Typed.meetsConstraintForNumber (.finite 3) true
      { Operator := "lt", Values := "Inf", UserParam := "p",
        UserParamType := "number" } = true ∧
    parseFloat ("1_000") = some (.finite 1000) ∧
    parseFloat ("1e999") = none := by
  refine ⟨by decide, by decide, by decide, by decide⟩

/-- C3, counterexample: a `bool` constraint `equals "true"` (whose
`Values` does parse as `true`) is NOT met by a user whose attribute
arrives as the non-zero integer 1 — `getBoolValue`'s empty `case int:` arm
makes the coercion error out, so the constraint is skipped, contradicting
the claim that a non-zero integer is treated as the boolean `true`. -/
theorem typed_bool_int_one_not_met :
    parseBool ("true") = some true ∧
    Typed.getBoolValue (.int 1) = none ∧
    Typed.evalConstraint { ID := "u1", Params := [("p", .int 1)] }
      { Operator := "equals", Values := "true", UserParam := "p",
        UserParamType := "bool" } = false := by
  refine ⟨by decide, by decide, by decide⟩

/-- C3, amended: for a `bool` constraint `equals "true"`, a user attribute
arriving as a `float64` is coerced to `strictly positive`, so the
constraint is met exactly when the float is positive; an attribute
arriving as an integer never meets the constraint (boolean coercion of an
`int` fails and the constraint is skipped). -/
theorem typed_bool_number_coercion (u : Typed.User) (c : userConstraint)
    (q : ℚ) (htype : c.UserParamType = "bool") (hop : c.Operator = "equals")
    (hval : c.Values = "true") (hid : c.UserParam ≠ "id")
    (hq : Typed.lookupVal u.Params c.UserParam = some (.float q)) :
    Typed.evalConstraint u c = decide (0 < q) ∧
    (∀ (u2 : Typed.User) (n : Int),
      Typed.lookupVal u2.Params c.UserParam = some (.int n) →
      Typed.evalConstraint u2 c = false) := by
  have hpb : parseBool ("true") = some true := by decide
  constructor
  · simp [Typed.evalConstraint, Typed.coerceAndMeetBool, htype, hid, hq,
      Typed.getBoolValue, Typed.meetsConstraintForBool, hval, hop, hpb]
  · intro u2 n hq2
    simp [Typed.evalConstraint, Typed.coerceAndMeetBool, htype, hid, hq2,
      Typed.getBoolValue]

/-- Witness for C3's amended statement: the float 2 meets the constraint,
the float -3 does not, and the integer 1 does not. -/
theorem typed_bool_number_coercion_witness :
    Typed.lookupVal ([("p", Typed.GoValue.float 2)]) ("p") =
      some (.float 2) ∧
    Typed.evalConstraint { ID := "u1", Params := [("p", .float 2)] }
      { Operator := "equals", Values := "true", UserParam := "p",
        UserParamType := "bool" } = true ∧
    Typed.evalConstraint { ID := "u1", Params := [("p", .float (-3))] }
      { Operator := "equals", Values := "true", UserParam := "p",
        UserParamType := "bool" } = false ∧
    Typed.evalConstraint { ID := "u1", Params := [("p", .int 1)] }
      { Operator := "equals", Values := "true", UserParam := "p",
        UserParamType := "bool" } = false := by
  refine ⟨by decide, ?_, ?_, ?_⟩
  · have h := (typed_bool_number_coercion
      { ID := "u1", Params := [("p", .float 2)] }
      { Operator := "equals", Values := "true", UserParam := "p",
        UserParamType := "bool" } 2 rfl rfl rfl (by decide) (by decide)).1
    rw [h]
    decide
  · have h := (typed_bool_number_coercion
      { ID := "u1", Params := [("p", .float (-3))] }
      { Operator := "equals", Values := "true", UserParam := "p",
        UserParamType := "bool" } (-3) rfl rfl rfl (by decide) (by decide)).1
    rw [h]
    decide
  · exact (typed_bool_number_coercion
      { ID := "u1", Params := [("p", .float 2)] }
      { Operator := "equals", Values := "true", UserParam := "p",
        UserParamType := "bool" } 2 rfl rfl rfl (by decide) (by decide)).2
      { ID := "u1", Params := [("p", .int 1)] } 1 (by decide)
